import Mathlib

/-!
Shallow embedding of the listing & aggregation core of the timber-marketplace
single-page application: the volume calculator of
`pages/customer/CustomerNewDemandPage.tsx` (`calculateCubicMeters`, identical
copy in the manufacturer page), and the status aggregators and company volume
ranker of the admin dashboard (`loadOrderStatusSummary`,
`loadStockStatusSummary`, `loadTopCompaniesByVolume`).

Numbers are modelled as exact rationals; `Math.PI` is the exact rational value
of the IEEE-754 double constant.  `x.toFixed(d)` followed by `parseFloat` is
modelled as rounding to `d` decimal places with ties rounded up (ECMAScript
`toFixed` picks the larger candidate on a tie).  The storage reads
(`localStorage.getItem` + `JSON.parse`) and the `setState` calls surrounding
the dashboard functions are the I/O boundary: the embedded functions take the
already-deserialized arrays as arguments and return the derived arrays.
-/

namespace Pohi

/-- The exact rational value of the IEEE-754 double `Math.PI`
(3.141592653589793115997963…). -/
def jsPI : ℚ := 884279719003555 / 281474976710656

/-- `parseFloat(x.toFixed(d))`: round `x` to `d` decimal places; on a tie the
larger candidate is chosen (ECMAScript `Number.prototype.toFixed`). -/
def toFixedQ (d : ℕ) (x : ℚ) : ℚ := (⌊x * 10 ^ d + 1 / 2⌋ : ℚ) / 10 ^ d

/-- JavaScript `parseInt` on a plain decimal numeral: truncation toward zero. -/
def jsTrunc (q : ℚ) : ℤ := if 0 ≤ q then ⌊q⌋ else ⌈q⌉

/-- A text form field (`ProductFeatures` stores `diameterFrom`, `diameterTo`,
`length` and `quantity` as strings) as `calculateCubicMeters` observes it:
the empty string (falsy), a nonempty plain decimal numeral with rational
value `q`, or a nonempty string that `parseFloat` cannot parse (`NaN`).
Exponent-notation numerals, where `parseFloat` and `parseInt` disagree beyond
truncation, are outside the model. -/
inductive FormField : Type
  | empty : FormField
  | numeric (q : ℚ) : FormField
  | malformed : FormField
deriving DecidableEq

/-- `parseFloat` of a form field; `none` is `NaN`. -/
def parseFloatF : FormField → Option ℚ
  | .numeric q => some q
  | _ => none

/-- `parseInt` of a form field; `none` is `NaN`. -/
def parseIntF : FormField → Option ℤ
  | .numeric q => some (jsTrunc q)
  | _ => none

/-- `calculateCubicMeters` of `CustomerNewDemandPage.tsx` (lines 52–67; the
manufacturer page holds an identical copy): if all four fields are nonempty,
parse them, and if none is `NaN` and the average diameter (in m) is positive,
set `cubicMeters` to `(π · (avgDiameter/2)² · length · quantity)` rounded to
3 decimals; otherwise set it to `0`. -/
def calculateCubicMeters (diameterFrom diameterTo len qty : FormField) : ℚ :=
  if diameterFrom ≠ .empty ∧ diameterTo ≠ .empty ∧ len ≠ .empty ∧ qty ≠ .empty then
    match parseFloatF diameterFrom, parseFloatF diameterTo, parseFloatF len, parseIntF qty with
    | some df, some dt, some l, some n =>
      -- avgDiameter = (parseFloat(diameterFrom) + parseFloat(diameterTo)) / 2 / 100
      if 0 < (df + dt) / 2 / 100 then
        toFixedQ 3 (jsPI * (((df + dt) / 2 / 100) / 2) ^ 2 * l * (n : ℚ))
      else 0
    | _, _, _, _ => 0
  else 0

/-! ## Status aggregators (`AdminDashboardPage`) -/

/-- A `DemandItem` as the dashboard functions consume it (fields it reads:
`status` — a string at runtime, freshly `JSON.parse`d — plus `cubicMeters`
and `submittedByCompanyId` for the volume ranker). -/
structure DemandItem : Type where
  status : String
  cubicMeters : ℚ
  submittedByCompanyId : Option String
deriving DecidableEq

/-- A `StockItem` as the dashboard functions consume it. -/
structure StockItem : Type where
  status : String
  cubicMeters : ℚ
  uploadedByCompanyId : Option String
deriving DecidableEq

/-- The `DemandStatus` enum values in declaration order
(`RECEIVED = 'Received'`, `PROCESSING = 'Processing'`, `COMPLETED =
'Completed'`, `CANCELLED = 'Cancelled'`); also the insertion order of the
`counts` object literal, hence of `Object.keys(counts)`. -/
def demandStatuses : List String := ["Received", "Processing", "Completed", "Cancelled"]

/-- The `StockStatus` enum values in declaration order. -/
def stockStatuses : List String := ["Available", "Reserved", "Sold"]

/-- `DemandStatusColorMap`, with the dashboard's `|| 'bg-slate-500'` fallback
for keys outside the enum (lookups only ever happen at enum keys). -/
def DemandStatusColorMap : String → String
  | "Received" => "text-sky-500"
  | "Processing" => "text-amber-500"
  | "Completed" => "text-green-500"
  | "Cancelled" => "text-red-500"
  | _ => "bg-slate-500"

/-- `StockStatusColorMap` with the same fallback. -/
def StockStatusColorMap : String → String
  | "Available" => "text-green-600"
  | "Reserved" => "text-yellow-600"
  | "Sold" => "text-red-600"
  | _ => "bg-slate-500"

/-- One row of a status summary
(`{ status, count, percentage, colorClass }`). -/
structure StatusSummaryPoint : Type where
  status : String
  count : ℕ
  percentage : ℚ
  colorClass : String
deriving DecidableEq

/-- `counts[s]` after the `demands.forEach` loop: the loop increments
`counts[d.status]` only when that key exists, so each enum key `s` ends at
the number of demands whose status equals `s`. -/
def countStatus (s : String) (demands : List DemandItem) : ℕ :=
  (demands.filter (fun d => d.status = s)).length

/-- `counts[s]` for the stock loop (`if (s.status && counts[s.status] !==
undefined)`; the extra truthiness test is redundant, `''` is no enum key). -/
def countStockStatus (s : String) (stockItems : List StockItem) : ℕ :=
  (stockItems.filter (fun it => it.status = s)).length

/-- `loadOrderStatusSummary` (dashboard, lines 579–610), minus the storage
read and the `totalDemandsCount` state report: with `total = 0` it returns a
zero row per `Object.keys(counts)` entry; otherwise one row per enum value in
declaration order with `percentage = ((count/total)*100).toFixed(1)`
re-parsed. -/
def loadOrderStatusSummary (demands : List DemandItem) : List StatusSummaryPoint :=
  let total := demands.length
  if total = 0 then
    demandStatuses.map (fun s => ⟨s, 0, 0, DemandStatusColorMap s⟩)
  else
    demandStatuses.map (fun s =>
      ⟨s, countStatus s demands,
        toFixedQ 1 ((countStatus s demands : ℚ) / (total : ℚ) * 100),
        DemandStatusColorMap s⟩)

/-- `loadStockStatusSummary` (dashboard, lines 612–641), same shape over the
three stock statuses. -/
def loadStockStatusSummary (stockItems : List StockItem) : List StatusSummaryPoint :=
  let total := stockItems.length
  if total = 0 then
    stockStatuses.map (fun s => ⟨s, 0, 0, StockStatusColorMap s⟩)
  else
    stockStatuses.map (fun s =>
      ⟨s, countStockStatus s stockItems,
        toFixedQ 1 ((countStockStatus s stockItems : ℚ) / (total : ℚ) * 100),
        StockStatusColorMap s⟩)

/-! ## Company volume ranker (`loadTopCompaniesByVolume`, dashboard
lines 643–683) -/

/-- `UserRole` enum. -/
inductive UserRole : Type
  | ADMIN : UserRole
  | CUSTOMER : UserRole
  | MANUFACTURER : UserRole
deriving DecidableEq

/-- A `MockCompany` as the ranker reads it. -/
structure MockCompany : Type where
  id : String
  companyName : String
  role : UserRole
deriving DecidableEq

/-- The fields the ranker's item loop reads from a `DemandItem` or
`StockItem`: `companyId` is `submittedByCompanyId` for demand items and
`uploadedByCompanyId` for stock items (whichever exists in the union type),
`cubicMeters` the volume. -/
structure RankItem : Type where
  companyId : Option String
  cubicMeters : ℚ
deriving DecidableEq

/-- The ranker's view of a demand item. -/
def DemandItem.toRankItem (d : DemandItem) : RankItem :=
  ⟨d.submittedByCompanyId, d.cubicMeters⟩

/-- The ranker's view of a stock item. -/
def StockItem.toRankItem (s : StockItem) : RankItem :=
  ⟨s.uploadedByCompanyId, s.cubicMeters⟩

/-- `companyVolumes[cid] || 0` after the `allItems.forEach` loop: the loop
adds `item.cubicMeters` under key `companyId` exactly when both `companyId`
and `item.cubicMeters` are truthy (nonempty id string, nonzero volume). -/
def companyVolume (allItems : List RankItem) (cid : String) : ℚ :=
  ((allItems.filter (fun it => it.companyId = some cid ∧ cid ≠ "" ∧ it.cubicMeters ≠ 0)).map
    (fun it => it.cubicMeters)).sum

/-- One element of the ranker's intermediate `sortedCompanies` array. -/
structure CompanyVolume : Type where
  company : MockCompany
  totalVolume : ℚ
deriving DecidableEq

/-- Insertion step of a stable descending sort on `totalVolume`: the
incoming (earlier) element passes over strictly larger elements only, so
elements of equal volume keep their original relative order — the behavior
of the ECMAScript stable `Array.prototype.sort` with comparator
`(a, b) => b.totalVolume - a.totalVolume`. -/
def insertVolumeDesc (x : CompanyVolume) : List CompanyVolume → List CompanyVolume
  | [] => [x]
  | y :: ys => if y.totalVolume ≤ x.totalVolume then x :: y :: ys else y :: insertVolumeDesc x ys

/-- Stable descending sort on `totalVolume` (model of
`.sort((a, b) => b.totalVolume - a.totalVolume)`). -/
def sortVolumeDesc : List CompanyVolume → List CompanyVolume
  | [] => []
  | x :: xs => insertVolumeDesc x (sortVolumeDesc xs)

/-- The ranker's `sortedCompanies` chain: filter companies to the role, pair
each with its summed volume, drop zero (and negative) volumes
(`.filter(cv => cv.totalVolume > 0)`), sort descending, `slice(0, topN)`. -/
def sortedCompanies (allCompanies : List MockCompany) (allItems : List RankItem)
    (role : UserRole) (topN : ℕ) : List CompanyVolume :=
  (sortVolumeDesc
    (((allCompanies.filter (fun c => c.role = role)).map
        (fun c => CompanyVolume.mk c (companyVolume allItems c.id))).filter
      (fun cv => 0 < cv.totalVolume))).take topN

/-- `companyName.length > 15 ? companyName.substring(0,12) + '...' :
companyName`; JS `substring` is modelled character-wise. -/
def truncateLabel (name : String) : String :=
  if 15 < name.length then String.mk (name.data.take 12) ++ "..." else name

/-- The bar color `text-sky-`/`text-emerald-` `${700 - index * 100}`. -/
def chartColor (role : UserRole) (index : ℕ) : String :=
  (if role = UserRole.CUSTOMER then "text-sky-" else "text-emerald-")
    ++ toString ((700 : ℤ) - (index : ℤ) * 100)

/-- One element of the ranker's `chartData` result. -/
structure ChartDataPoint : Type where
  label : String
  value : ℚ
  color : String
deriving DecidableEq

/-- `sortedCompanies.map((cv, index) => ({label, value, color}))`, with the
running index made explicit. -/
def chartDataFrom (role : UserRole) (index : ℕ) : List CompanyVolume → List ChartDataPoint
  | [] => []
  | cv :: rest =>
    ⟨truncateLabel cv.company.companyName, toFixedQ 2 cv.totalVolume, chartColor role index⟩
      :: chartDataFrom role (index + 1) rest

/-- `loadTopCompaniesByVolume` (dashboard, lines 643–683) minus the storage
reads and the final `setState`: the caller passes the deserialized company
list and the item list of the selected storage (demands for `CUSTOMER`,
stock for `MANUFACTURER`), and receives `chartData`. -/
def loadTopCompaniesByVolume (allCompanies : List MockCompany) (allItems : List RankItem)
    (role : UserRole) (topN : ℕ) : List ChartDataPoint :=
  chartDataFrom role 0 (sortedCompanies allCompanies allItems role topN)

/-! ## Helper lemmas -/

theorem abs_toFixedQ_sub (d : ℕ) (x : ℚ) : |toFixedQ d x - x| ≤ 1 / (2 * 10 ^ d) := by
  have hpow : (0 : ℚ) < 10 ^ d := by positivity
  have h1 : (⌊x * 10 ^ d + 1 / 2⌋ : ℚ) ≤ x * 10 ^ d + 1 / 2 := Int.floor_le _
  have h2 : x * 10 ^ d + 1 / 2 < (⌊x * 10 ^ d + 1 / 2⌋ : ℚ) + 1 := Int.lt_floor_add_one _
  have habs : |(⌊x * 10 ^ d + 1 / 2⌋ : ℚ) - x * 10 ^ d| ≤ 1 / 2 := by
    rw [abs_le]; constructor <;> linarith
  have e : toFixedQ d x - x = ((⌊x * 10 ^ d + 1 / 2⌋ : ℚ) - x * 10 ^ d) / 10 ^ d := by
    rw [toFixedQ]; field_simp; ring
  rw [e, abs_div, abs_of_pos hpow, div_le_div_iff hpow (by positivity)]
  have hmul := mul_le_mul_of_nonneg_right habs (show (0 : ℚ) ≤ 2 * 10 ^ d by positivity)
  linarith

theorem toFixedQ_mono (d : ℕ) {x y : ℚ} (h : x ≤ y) : toFixedQ d x ≤ toFixedQ d y := by
  have hpow : (0 : ℚ) < 10 ^ d := by positivity
  rw [toFixedQ, toFixedQ, div_le_div_iff hpow hpow]
  have hfl : (⌊x * 10 ^ d + 1 / 2⌋ : ℤ) ≤ ⌊y * 10 ^ d + 1 / 2⌋ :=
    Int.floor_mono (by nlinarith)
  have : ((⌊x * 10 ^ d + 1 / 2⌋ : ℤ) : ℚ) ≤ ((⌊y * 10 ^ d + 1 / 2⌋ : ℤ) : ℚ) := by
    exact_mod_cast hfl
  nlinarith

theorem countStatus_cons (s : String) (d : DemandItem) (t : List DemandItem) :
    countStatus s (d :: t) = (if d.status = s then 1 else 0) + countStatus s t := by
  by_cases h : d.status = s <;> simp [countStatus, List.filter_cons, h] <;> omega

theorem countStockStatus_cons (s : String) (d : StockItem) (t : List StockItem) :
    countStockStatus s (d :: t) = (if d.status = s then 1 else 0) + countStockStatus s t := by
  by_cases h : d.status = s <;> simp [countStockStatus, List.filter_cons, h] <;> omega

/-- The four per-status counts add up to the number of demands whose status
is one of the four enum values. -/
theorem demand_counts_sum (l : List DemandItem) :
    countStatus "Received" l + countStatus "Processing" l + countStatus "Completed" l
        + countStatus "Cancelled" l
      = (l.filter (fun d => d.status ∈ demandStatuses)).length := by
  induction l with
  | nil => simp [countStatus]
  | cons d t ih =>
    rw [countStatus_cons, countStatus_cons, countStatus_cons, countStatus_cons,
      List.filter_cons]
    simp only [demandStatuses] at ih ⊢
    by_cases hm : d.status ∈ (["Received", "Processing", "Completed", "Cancelled"] : List String)
    · have hm' := hm
      simp only [List.mem_cons, List.not_mem_nil, or_false] at hm'
      rcases hm' with h | h | h | h <;> rw [h] <;> simp at ih ⊢ <;> omega
    · have hm' := hm
      simp only [List.mem_cons, List.not_mem_nil, or_false, not_or] at hm'
      obtain ⟨h1, h2, h3, h4⟩ := hm'
      rw [if_neg h1, if_neg h2, if_neg h3, if_neg h4,
        if_neg (by simpa using hm)]
      omega

/-- The three per-status counts add up to the number of stock items whose
status is one of the three enum values. -/
theorem stock_counts_sum (l : List StockItem) :
    countStockStatus "Available" l + countStockStatus "Reserved" l + countStockStatus "Sold" l
      = (l.filter (fun s => s.status ∈ stockStatuses)).length := by
  induction l with
  | nil => simp [countStockStatus]
  | cons d t ih =>
    rw [countStockStatus_cons, countStockStatus_cons, countStockStatus_cons, List.filter_cons]
    simp only [stockStatuses] at ih ⊢
    by_cases hm : d.status ∈ (["Available", "Reserved", "Sold"] : List String)
    · have hm' := hm
      simp only [List.mem_cons, List.not_mem_nil, or_false] at hm'
      rcases hm' with h | h | h <;> rw [h] <;> simp at ih ⊢ <;> omega
    · have hm' := hm
      simp only [List.mem_cons, List.not_mem_nil, or_false, not_or] at hm'
      obtain ⟨h1, h2, h3⟩ := hm'
      rw [if_neg h1, if_neg h2, if_neg h3, if_neg (by simpa using hm)]
      omega

theorem length_filter_lt {α : Type} (p : α → Bool) (l : List α)
    (h : ∃ x ∈ l, ¬ p x) : (l.filter p).length < l.length := by
  induction l with
  | nil => simp at h
  | cons a t ih =>
    rw [List.filter_cons]
    by_cases hp : p a = true
    · rw [if_pos hp]
      obtain ⟨x, hx, hpx⟩ := h
      rcases List.mem_cons.mp hx with rfl | hx'
      · exact absurd hp hpx
      · have := ih ⟨x, hx', hpx⟩
        simp only [List.length_cons]
        omega
    · rw [if_neg hp]
      have := List.length_filter_le p t
      simp only [List.length_cons]
      omega

theorem mem_insertVolumeDesc {a x : CompanyVolume} {l : List CompanyVolume} :
    a ∈ insertVolumeDesc x l ↔ a = x ∨ a ∈ l := by
  induction l with
  | nil => simp [insertVolumeDesc]
  | cons y ys ih =>
    rw [insertVolumeDesc]
    by_cases h : y.totalVolume ≤ x.totalVolume
    · rw [if_pos h]; simp [or_comm, or_left_comm]
    · rw [if_neg h]; simp [ih, or_comm, or_left_comm]

theorem mem_sortVolumeDesc {a : CompanyVolume} {l : List CompanyVolume} :
    a ∈ sortVolumeDesc l ↔ a ∈ l := by
  induction l with
  | nil => rfl
  | cons x xs ih => rw [sortVolumeDesc, mem_insertVolumeDesc, ih, List.mem_cons]

theorem length_insertVolumeDesc (x : CompanyVolume) (l : List CompanyVolume) :
    (insertVolumeDesc x l).length = l.length + 1 := by
  induction l with
  | nil => rfl
  | cons y ys ih =>
    rw [insertVolumeDesc]
    by_cases h : y.totalVolume ≤ x.totalVolume
    · rw [if_pos h]; rfl
    · rw [if_neg h]; simp [ih]

theorem length_sortVolumeDesc (l : List CompanyVolume) :
    (sortVolumeDesc l).length = l.length := by
  induction l with
  | nil => rfl
  | cons x xs ih => rw [sortVolumeDesc, length_insertVolumeDesc, ih, List.length_cons]

theorem pairwise_insertVolumeDesc {x : CompanyVolume} {l : List CompanyVolume}
    (h : l.Pairwise (fun a b => b.totalVolume ≤ a.totalVolume)) :
    (insertVolumeDesc x l).Pairwise (fun a b => b.totalVolume ≤ a.totalVolume) := by
  induction l with
  | nil => simp [insertVolumeDesc]
  | cons y ys ih =>
    rw [insertVolumeDesc]
    rw [List.pairwise_cons] at h
    by_cases hxy : y.totalVolume ≤ x.totalVolume
    · rw [if_pos hxy, List.pairwise_cons]
      refine ⟨?_, List.pairwise_cons.mpr h⟩
      intro z hz
      rcases List.mem_cons.mp hz with rfl | hz'
      · exact hxy
      · exact le_trans (h.1 z hz') hxy
    · rw [if_neg hxy, List.pairwise_cons]
      refine ⟨?_, ih h.2⟩
      intro z hz
      rcases mem_insertVolumeDesc.mp hz with rfl | hz'
      · exact le_of_not_le hxy
      · exact h.1 z hz'

theorem pairwise_sortVolumeDesc (l : List CompanyVolume) :
    (sortVolumeDesc l).Pairwise (fun a b => b.totalVolume ≤ a.totalVolume) := by
  induction l with
  | nil => exact List.Pairwise.nil
  | cons x xs ih => exact pairwise_insertVolumeDesc ih

/-- Restricted to the elements of any one volume `v`, inserting an element
changes nothing but possibly a new head `x` (the insertion never passes `x`
over an element of equal volume): the key stability fact. -/
theorem filter_insertVolumeDesc (v : ℚ) (x : CompanyVolume) (l : List CompanyVolume) :
    (insertVolumeDesc x l).filter (fun cv => cv.totalVolume = v)
      = if x.totalVolume = v then x :: l.filter (fun cv => cv.totalVolume = v)
        else l.filter (fun cv => cv.totalVolume = v) := by
  induction l with
  | nil =>
    by_cases h : x.totalVolume = v <;>
      simp [insertVolumeDesc, List.filter_cons, h]
  | cons y ys ih =>
    rw [insertVolumeDesc]
    by_cases hxy : y.totalVolume ≤ x.totalVolume
    · rw [if_pos hxy]
      by_cases h : x.totalVolume = v <;>
        simp [List.filter_cons, h]
    · rw [if_neg hxy, List.filter_cons, ih, List.filter_cons]
      by_cases h : x.totalVolume = v
      · have hyv : y.totalVolume ≠ v := fun hy => hxy (le_of_eq (hy.trans h.symm))
        simp [h, hyv]
      · by_cases hy : y.totalVolume = v <;> simp [h, hy]

/-- Stability of the descending sort: the subsequence of any one volume
value is exactly the original subsequence, in original order. -/
theorem filter_sortVolumeDesc (v : ℚ) (l : List CompanyVolume) :
    (sortVolumeDesc l).filter (fun cv => cv.totalVolume = v)
      = l.filter (fun cv => cv.totalVolume = v) := by
  induction l with
  | nil => rfl
  | cons x xs ih =>
    rw [sortVolumeDesc, filter_insertVolumeDesc, List.filter_cons]
    by_cases h : x.totalVolume = v
    · rw [if_pos h, if_pos (by simpa using h), ih]
    · rw [if_neg h, if_neg (by simpa using h), ih]

/-- A filtered prefix is a prefix of the filtered list. -/
theorem filter_take {α : Type} (p : α → Bool) :
    ∀ (l : List α) (n : ℕ), ∃ k, (l.take n).filter p = (l.filter p).take k := by
  intro l
  induction l with
  | nil => intro n; exact ⟨0, by simp⟩
  | cons a t ih =>
    intro n
    cases n with
    | zero => exact ⟨0, by simp⟩
    | succ m =>
      obtain ⟨k, hk⟩ := ih m
      rw [List.take_succ_cons, List.filter_cons, List.filter_cons]
      by_cases hp : p a = true
      · rw [if_pos hp]
        exact ⟨k + 1, by rw [if_pos hp, List.take_succ_cons, hk]⟩
      · rw [if_neg hp]
        exact ⟨k, by rw [if_neg hp, hk]⟩

theorem chartDataFrom_map_label_value (role : UserRole) :
    ∀ (i : ℕ) (l : List CompanyVolume),
      (chartDataFrom role i l).map (fun p => (p.label, p.value))
        = l.map (fun cv => (truncateLabel cv.company.companyName, toFixedQ 2 cv.totalVolume)) := by
  intro i l
  induction l generalizing i with
  | nil => rfl
  | cons cv rest ih => rw [chartDataFrom, List.map_cons, List.map_cons, ih]

theorem chartDataFrom_map_value (role : UserRole) :
    ∀ (i : ℕ) (l : List CompanyVolume),
      (chartDataFrom role i l).map ChartDataPoint.value
        = l.map (fun cv => toFixedQ 2 cv.totalVolume) := by
  intro i l
  induction l generalizing i with
  | nil => rfl
  | cons cv rest ih => rw [chartDataFrom, List.map_cons, List.map_cons, ih]

theorem chartDataFrom_length (role : UserRole) :
    ∀ (i : ℕ) (l : List CompanyVolume), (chartDataFrom role i l).length = l.length := by
  intro i l
  induction l generalizing i with
  | nil => rfl
  | cons cv rest ih => rw [chartDataFrom, List.length_cons, List.length_cons, ih]

theorem calc_eq_zero_of_parse (dF dT len qty : FormField)
    (h : parseFloatF dF = none ∨ parseFloatF dT = none ∨ parseFloatF len = none
        ∨ parseIntF qty = none) :
    calculateCubicMeters dF dT len qty = 0 := by
  cases dF <;> cases dT <;> cases len <;> cases qty <;>
    simp_all [calculateCubicMeters, parseFloatF, parseIntF]

theorem calc_eq_zero_of_avg (a b : ℚ) (len qty : FormField)
    (h : (a + b) / 2 / 100 / 2 ≤ 0) :
    calculateCubicMeters (.numeric a) (.numeric b) len qty = 0 := by
  cases len with
  | empty => simp [calculateCubicMeters]
  | malformed =>
    exact calc_eq_zero_of_parse _ _ _ _ (Or.inr (Or.inr (Or.inl rfl)))
  | numeric l =>
    cases qty with
    | empty => simp [calculateCubicMeters]
    | malformed =>
      exact calc_eq_zero_of_parse _ _ _ _ (Or.inr (Or.inr (Or.inr rfl)))
    | numeric q =>
      rw [calculateCubicMeters, if_pos (by simp)]
      simp only [parseFloatF, parseIntF]
      rw [if_neg (by linarith)]

/-! ## The claims -/

/-- C1 (counterexample): the claimed closed form uses the raw `quantity`,
but the code applies `parseInt` first; at `diameterFrom = 100`,
`diameterTo = 100`, `length = 1`, `quantity = 3.5` (all present, numeric and
positive) the code rounds `π/4·3 = 2.356…` to `2.356` while the claimed
formula gives `round3(π/4·3.5) = 2.749`. -/
theorem volumeCalculator_formula_counterexample :
    calculateCubicMeters (.numeric 100) (.numeric 100) (.numeric 1) (.numeric (7 / 2))
      ≠ toFixedQ 3 (jsPI * ((100 + 100 : ℚ) / 200) ^ 2 / 4 * 1 * (7 / 2)) := by
  rw [calculateCubicMeters, if_pos (by simp)]
  norm_num [parseFloatF, parseIntF, jsTrunc, toFixedQ, jsPI]

/-- C1 (amended): for all-present, numeric, positive inputs the calculator
returns `π · ((diameterFrom+diameterTo)/200)² / 4 · length · quantity`
rounded to 3 decimal places, with `quantity` first truncated to an integer
by `parseInt` (so the claim as stated holds whenever `quantity` is a
positive integer). -/
theorem volumeCalculator_formula (a b l q : ℚ) (ha : 0 < a) (hb : 0 < b)
    (hl : 0 < l) (hq : 0 < q) :
    calculateCubicMeters (.numeric a) (.numeric b) (.numeric l) (.numeric q)
      = toFixedQ 3 (jsPI * ((a + b) / 200) ^ 2 / 4 * l * (jsTrunc q : ℚ)) := by
  rw [calculateCubicMeters, if_pos (by simp)]
  simp only [parseFloatF, parseIntF]
  rw [if_pos (by linarith)]
  congr 1
  ring

theorem volumeCalculator_formula_witness :
    calculateCubicMeters (.numeric 10) (.numeric 20) (.numeric 4) (.numeric 100)
      = toFixedQ 3 (jsPI * ((10 + 20 : ℚ) / 200) ^ 2 / 4 * 4 * (jsTrunc 100 : ℚ)) :=
  volumeCalculator_formula 10 20 4 100 (by norm_num) (by norm_num) (by norm_num) (by norm_num)

/-- C5: if any of the four fields is missing (empty) or non-numeric, or the
computed average radius (m) is nonpositive, the result is `0`; in particular
`volume(0,0,0,0) = 0` and `volume("", "10", "5", "3") = 0`. -/
theorem volumeCalculator_degenerate (dF dT len qty : FormField)
    (h : dF = .empty ∨ dT = .empty ∨ len = .empty ∨ qty = .empty
        ∨ parseFloatF dF = none ∨ parseFloatF dT = none ∨ parseFloatF len = none
        ∨ parseIntF qty = none
        ∨ ∀ a b : ℚ, parseFloatF dF = some a → parseFloatF dT = some b →
            (a + b) / 2 / 100 / 2 ≤ 0) :
    calculateCubicMeters dF dT len qty = 0
    ∧ calculateCubicMeters (.numeric 0) (.numeric 0) (.numeric 0) (.numeric 0) = 0
    ∧ calculateCubicMeters .empty (.numeric 10) (.numeric 5) (.numeric 3) = 0 := by
  refine ⟨?_, ?_, by simp [calculateCubicMeters]⟩
  · rcases h with rfl | rfl | rfl | rfl | h | h | h | h | h
    · simp [calculateCubicMeters]
    · simp [calculateCubicMeters]
    · simp [calculateCubicMeters]
    · simp [calculateCubicMeters]
    · exact calc_eq_zero_of_parse _ _ _ _ (Or.inl h)
    · exact calc_eq_zero_of_parse _ _ _ _ (Or.inr (Or.inl h))
    · exact calc_eq_zero_of_parse _ _ _ _ (Or.inr (Or.inr (Or.inl h)))
    · exact calc_eq_zero_of_parse _ _ _ _ (Or.inr (Or.inr (Or.inr h)))
    · cases dF with
      | empty => simp [calculateCubicMeters]
      | malformed => exact calc_eq_zero_of_parse _ _ _ _ (Or.inl rfl)
      | numeric a =>
        cases dT with
        | empty => simp [calculateCubicMeters]
        | malformed => exact calc_eq_zero_of_parse _ _ _ _ (Or.inr (Or.inl rfl))
        | numeric b => exact calc_eq_zero_of_avg a b len qty (h a b rfl rfl)
  · rw [calculateCubicMeters, if_pos (by simp)]
    simp only [parseFloatF, parseIntF]
    rw [if_neg (by norm_num)]

theorem volumeCalculator_degenerate_witness :
    calculateCubicMeters .empty (.numeric 10) (.numeric 5) (.numeric 3) = 0
    ∧ calculateCubicMeters (.numeric 0) (.numeric 0) (.numeric 0) (.numeric 0) = 0
    ∧ calculateCubicMeters .empty (.numeric 10) (.numeric 5) (.numeric 3) = 0 :=
  volumeCalculator_degenerate .empty (.numeric 10) (.numeric 5) (.numeric 3) (Or.inl rfl)

/-- C7 (counterexample): at `diameterFrom = 10`, `diameterTo = 20`,
`length = 4`, `quantity = 100` the code returns `7.069`
(`100·π·0.075²·4 = 7.06858…` rounds up at the third decimal), not the
claimed `7.068`. -/
theorem volumeScenario_counterexample :
    calculateCubicMeters (.numeric 10) (.numeric 20) (.numeric 4) (.numeric 100)
      ≠ 7068 / 1000 := by
  rw [calculateCubicMeters, if_pos (by simp)]
  norm_num [parseFloatF, parseIntF, jsTrunc, toFixedQ, jsPI]

/-- C7 (amended): for that input the average radius is `0.075` m, the volume
per piece rounds to `0.0707` m³ at 4 decimals, and the returned total is
`7.069` (not `7.068`). -/
theorem volumeScenario :
    ((10 + 20 : ℚ) / 2 / 100) / 2 = 3 / 40
    ∧ toFixedQ 4 (jsPI * (((10 + 20 : ℚ) / 2 / 100) / 2) ^ 2 * 4) = 707 / 10000
    ∧ calculateCubicMeters (.numeric 10) (.numeric 20) (.numeric 4) (.numeric 100)
        = 7069 / 1000 := by
  refine ⟨by norm_num, by norm_num [toFixedQ, jsPI], ?_⟩
  rw [calculateCubicMeters, if_pos (by simp)]
  norm_num [parseFloatF, parseIntF, jsTrunc, toFixedQ, jsPI]

/-- C2: when every record's status is drawn from the enum, each aggregator
returns exactly one row per enum value, in declaration order, and the counts
sum to the number of records. -/
theorem statusAggregator_rows (demands : List DemandItem) (stockItems : List StockItem)
    (hd : ∀ d ∈ demands, d.status ∈ demandStatuses)
    (hs : ∀ s ∈ stockItems, s.status ∈ stockStatuses) :
    ((loadOrderStatusSummary demands).map StatusSummaryPoint.status = demandStatuses
      ∧ (loadOrderStatusSummary demands).length = demandStatuses.length
      ∧ ((loadOrderStatusSummary demands).map StatusSummaryPoint.count).sum = demands.length)
    ∧ ((loadStockStatusSummary stockItems).map StatusSummaryPoint.status = stockStatuses
      ∧ (loadStockStatusSummary stockItems).length = stockStatuses.length
      ∧ ((loadStockStatusSummary stockItems).map StatusSummaryPoint.count).sum
          = stockItems.length) := by
  constructor
  · by_cases h0 : demands.length = 0
    · have hnil : demands = [] := List.length_eq_zero.mp h0
      subst hnil
      simp [loadOrderStatusSummary, demandStatuses]
    · have hfe : demands.filter (fun d => d.status ∈ demandStatuses) = demands :=
        List.filter_eq_self.mpr (by intro a ha; simpa using hd a ha)
      have hsum := demand_counts_sum demands
      rw [hfe] at hsum
      refine ⟨by simp [loadOrderStatusSummary, h0, demandStatuses],
        by simp [loadOrderStatusSummary, h0, demandStatuses], ?_⟩
      simp [loadOrderStatusSummary, h0, demandStatuses]
      omega
  · by_cases h0 : stockItems.length = 0
    · have hnil : stockItems = [] := List.length_eq_zero.mp h0
      subst hnil
      simp [loadStockStatusSummary, stockStatuses]
    · have hfe : stockItems.filter (fun s => s.status ∈ stockStatuses) = stockItems :=
        List.filter_eq_self.mpr (by intro a ha; simpa using hs a ha)
      have hsum := stock_counts_sum stockItems
      rw [hfe] at hsum
      refine ⟨by simp [loadStockStatusSummary, h0, stockStatuses],
        by simp [loadStockStatusSummary, h0, stockStatuses], ?_⟩
      simp [loadStockStatusSummary, h0, stockStatuses]
      omega

theorem statusAggregator_rows_witness :
    ((loadOrderStatusSummary [⟨"Received", 0, none⟩]).map StatusSummaryPoint.status
        = demandStatuses
      ∧ (loadOrderStatusSummary [⟨"Received", 0, none⟩]).length = demandStatuses.length
      ∧ ((loadOrderStatusSummary [⟨"Received", 0, none⟩]).map StatusSummaryPoint.count).sum
          = ([⟨"Received", 0, none⟩] : List DemandItem).length)
    ∧ ((loadStockStatusSummary []).map StatusSummaryPoint.status = stockStatuses
      ∧ (loadStockStatusSummary []).length = stockStatuses.length
      ∧ ((loadStockStatusSummary []).map StatusSummaryPoint.count).sum
          = ([] : List StockItem).length) :=
  statusAggregator_rows [⟨"Received", 0, none⟩] []
    (by intro d hd; simp at hd; subst hd; simp [demandStatuses]) (by simp)

/-- C4: every returned row's percentage is `round1(count/total·100)` when
`total > 0`, and `0` when `total = 0` (the division is short-circuited, no
`NaN`). -/
theorem statusAggregator_percentage (demands : List DemandItem) (p : StatusSummaryPoint)
    (hp : p ∈ loadOrderStatusSummary demands) :
    p.percentage = if demands.length = 0 then 0
      else toFixedQ 1 ((countStatus p.status demands : ℚ) / (demands.length : ℚ) * 100) := by
  by_cases h0 : demands.length = 0
  · rw [if_pos h0]
    simp [loadOrderStatusSummary, h0, demandStatuses] at hp
    rcases hp with rfl | rfl | rfl | rfl <;> rfl
  · rw [if_neg h0]
    simp [loadOrderStatusSummary, h0, demandStatuses] at hp
    rcases hp with rfl | rfl | rfl | rfl <;> rfl

theorem statusAggregator_percentage_witness :
    (⟨"Received", countStatus "Received" [⟨"Received", 0, none⟩],
        toFixedQ 1 ((countStatus "Received" [⟨"Received", 0, none⟩] : ℚ)
          / (([⟨"Received", 0, none⟩] : List DemandItem).length : ℚ) * 100),
        DemandStatusColorMap "Received"⟩ : StatusSummaryPoint).percentage
      = if ([⟨"Received", 0, none⟩] : List DemandItem).length = 0 then 0
        else toFixedQ 1
          ((countStatus (⟨"Received", countStatus "Received" [⟨"Received", 0, none⟩],
              toFixedQ 1 ((countStatus "Received" [⟨"Received", 0, none⟩] : ℚ)
                / (([⟨"Received", 0, none⟩] : List DemandItem).length : ℚ) * 100),
              DemandStatusColorMap "Received"⟩ : StatusSummaryPoint).status
              [⟨"Received", 0, none⟩] : ℚ)
            / (([⟨"Received", 0, none⟩] : List DemandItem).length : ℚ) * 100) :=
  statusAggregator_percentage [⟨"Received", 0, none⟩] _
    (by simp [loadOrderStatusSummary, demandStatuses])

/-- C8: with every status drawn from the enum and `total > 0`, the four
returned percentages sum to `100` within `±0.1·K`; with `total = 0` every
percentage is `0`. -/
theorem statusAggregator_percentage_sum (demands : List DemandItem)
    (h : ∀ d ∈ demands, d.status ∈ demandStatuses) :
    (0 < demands.length →
      |((loadOrderStatusSummary demands).map StatusSummaryPoint.percentage).sum - 100|
        ≤ (1 / 10) * (demandStatuses.length : ℚ))
    ∧ (demands.length = 0 →
      ∀ p ∈ loadOrderStatusSummary demands, p.percentage = 0) := by
  constructor
  · intro h0
    have hne : demands.length ≠ 0 := Nat.pos_iff_ne_zero.mp h0
    have hNpos : (0 : ℚ) < (demands.length : ℚ) := by exact_mod_cast h0
    have hfe : demands.filter (fun d => d.status ∈ demandStatuses) = demands :=
      List.filter_eq_self.mpr (by intro a ha; simpa using h a ha)
    have hsum := demand_counts_sum demands
    rw [hfe] at hsum
    have hsumQ : ((countStatus "Received" demands : ℚ) + (countStatus "Processing" demands : ℚ)
        + (countStatus "Completed" demands : ℚ) + (countStatus "Cancelled" demands : ℚ))
        = (demands.length : ℚ) := by exact_mod_cast hsum
    have hx : ((countStatus "Received" demands : ℚ) / (demands.length : ℚ) * 100)
        + ((countStatus "Processing" demands : ℚ) / (demands.length : ℚ) * 100)
        + ((countStatus "Completed" demands : ℚ) / (demands.length : ℚ) * 100)
        + ((countStatus "Cancelled" demands : ℚ) / (demands.length : ℚ) * 100) = 100 := by
      field_simp
      linarith
    have hbR := abs_toFixedQ_sub 1 ((countStatus "Received" demands : ℚ)
      / (demands.length : ℚ) * 100)
    have hbP := abs_toFixedQ_sub 1 ((countStatus "Processing" demands : ℚ)
      / (demands.length : ℚ) * 100)
    have hbC := abs_toFixedQ_sub 1 ((countStatus "Completed" demands : ℚ)
      / (demands.length : ℚ) * 100)
    have hbX := abs_toFixedQ_sub 1 ((countStatus "Cancelled" demands : ℚ)
      / (demands.length : ℚ) * 100)
    rw [abs_le] at hbR hbP hbC hbX
    simp only [loadOrderStatusSummary, hne, if_false, demandStatuses, List.map_cons,
      List.map_nil, List.sum_cons, List.sum_nil, List.length_cons, List.length_nil]
    rw [abs_le]
    norm_num at hbR hbP hbC hbX ⊢
    constructor <;> linarith
  · intro h0 p hp
    simp [loadOrderStatusSummary, h0, demandStatuses] at hp
    rcases hp with rfl | rfl | rfl | rfl <;> rfl

theorem statusAggregator_percentage_sum_witness :
    |((loadOrderStatusSummary [⟨"Received", 0, none⟩]).map StatusSummaryPoint.percentage).sum
        - 100| ≤ (1 / 10) * (demandStatuses.length : ℚ) :=
  (statusAggregator_percentage_sum [⟨"Received", 0, none⟩]
    (by intro d hd; simp at hd; subst hd; simp [demandStatuses])).1 (by simp)

theorem countStatus_append (s : String) (l1 l2 : List DemandItem) :
    countStatus s (l1 ++ l2) = countStatus s l1 + countStatus s l2 := by
  simp [countStatus, List.filter_append]

theorem countStatus_replicate (s : String) (d : DemandItem) (n : ℕ) :
    countStatus s (List.replicate n d) = if d.status = s then n else 0 := by
  by_cases h : d.status = s <;> simp [countStatus, List.filter_replicate, h]

/-- Ten thousand demands: 3336 `Received`, 3336 `Processing`, 3327
`Completed` and one whose status `"Unknown"` is outside the enum. -/
def bigDemands : List DemandItem :=
  List.replicate 3336 ⟨"Received", 0, none⟩ ++ List.replicate 3336 ⟨"Processing", 0, none⟩
    ++ List.replicate 3327 ⟨"Completed", 0, none⟩ ++ [⟨"Unknown", 0, none⟩]

/-- C10 (counterexample): with an out-of-enum record the counts do sum to
strictly less than the total (9999 < 10000 here), but the percentages need
not sum to strictly less than 100: here they are
`33.4 + 33.4 + 33.3 + 0 = 100.1` (rounding `33.36`, `33.36`, `33.27`). -/
theorem statusAggregator_unknownStatus_counterexample :
    (∃ d ∈ bigDemands, d.status ∉ demandStatuses)
    ∧ ((loadOrderStatusSummary bigDemands).map StatusSummaryPoint.count).sum
        < bigDemands.length
    ∧ ((loadOrderStatusSummary bigDemands).map StatusSummaryPoint.percentage).sum = 1001 / 10
    ∧ ¬ ((loadOrderStatusSummary bigDemands).map StatusSummaryPoint.percentage).sum < 100 := by
  have hlen : bigDemands.length = 10000 := by
    rw [bigDemands, List.length_append, List.length_append, List.length_append,
      List.length_replicate, List.length_replicate, List.length_replicate]
    rfl
  have cR : countStatus "Received" bigDemands = 3336 := by
    rw [bigDemands, countStatus_append, countStatus_append, countStatus_append,
      countStatus_replicate, countStatus_replicate, countStatus_replicate,
      countStatus_cons]
    simp [countStatus]
  have cP : countStatus "Processing" bigDemands = 3336 := by
    rw [bigDemands, countStatus_append, countStatus_append, countStatus_append,
      countStatus_replicate, countStatus_replicate, countStatus_replicate,
      countStatus_cons]
    simp [countStatus]
  have cC : countStatus "Completed" bigDemands = 3327 := by
    rw [bigDemands, countStatus_append, countStatus_append, countStatus_append,
      countStatus_replicate, countStatus_replicate, countStatus_replicate,
      countStatus_cons]
    simp [countStatus]
  have cX : countStatus "Cancelled" bigDemands = 0 := by
    rw [bigDemands, countStatus_append, countStatus_append, countStatus_append,
      countStatus_replicate, countStatus_replicate, countStatus_replicate,
      countStatus_cons]
    simp [countStatus]
  have hmem : (⟨"Unknown", 0, none⟩ : DemandItem) ∈ bigDemands := by
    rw [bigDemands]
    exact List.mem_append.mpr (Or.inr (List.mem_singleton.mpr rfl))
  refine ⟨⟨⟨"Unknown", 0, none⟩, hmem, by simp [demandStatuses]⟩, ?_, ?_, ?_⟩
  · simp only [loadOrderStatusSummary, hlen, demandStatuses, List.map_cons, List.map_nil,
      List.sum_cons, List.sum_nil, cR, cP, cC, cX]
    norm_num
  · simp only [loadOrderStatusSummary, hlen, demandStatuses, List.map_cons, List.map_nil,
      List.sum_cons, List.sum_nil, cR, cP, cC, cX]
    norm_num [toFixedQ]
  · simp only [loadOrderStatusSummary, hlen, demandStatuses, List.map_cons, List.map_nil,
      List.sum_cons, List.sum_nil, cR, cP, cC, cX]
    norm_num [toFixedQ]

/-- C10 (amended): a record with an out-of-enum status increments no count
but still inflates the denominator, so the counts sum to strictly less than
the total; the rounded percentages then sum to strictly less than
`100 + 0.05·K` (but, by the counterexample, not necessarily to strictly less
than `100`). -/
theorem statusAggregator_unknownStatus (demands : List DemandItem)
    (h : ∃ d ∈ demands, d.status ∉ demandStatuses) :
    ((loadOrderStatusSummary demands).map StatusSummaryPoint.count).sum < demands.length
    ∧ ((loadOrderStatusSummary demands).map StatusSummaryPoint.percentage).sum
        < 100 + (1 / 20) * (demandStatuses.length : ℚ) := by
  obtain ⟨d0, hd0, hd0s⟩ := h
  have h0 : 0 < demands.length := List.length_pos.mpr (by rintro rfl; simp at hd0)
  have hne : demands.length ≠ 0 := Nat.pos_iff_ne_zero.mp h0
  have hNpos : (0 : ℚ) < (demands.length : ℚ) := by exact_mod_cast h0
  have hflt : (demands.filter (fun d => d.status ∈ demandStatuses)).length < demands.length :=
    length_filter_lt _ demands ⟨d0, hd0, by simpa using hd0s⟩
  have hsum := demand_counts_sum demands
  have hcount : countStatus "Received" demands + countStatus "Processing" demands
      + countStatus "Completed" demands + countStatus "Cancelled" demands
      < demands.length := by omega
  constructor
  · simp only [loadOrderStatusSummary, hne, if_false, demandStatuses, List.map_cons,
      List.map_nil, List.sum_cons, List.sum_nil]
    omega
  · have hcQ : ((countStatus "Received" demands : ℚ) + (countStatus "Processing" demands : ℚ)
        + (countStatus "Completed" demands : ℚ) + (countStatus "Cancelled" demands : ℚ))
        + 1 ≤ (demands.length : ℚ) := by exact_mod_cast hcount
    have hx : ((countStatus "Received" demands : ℚ) / (demands.length : ℚ) * 100)
        + ((countStatus "Processing" demands : ℚ) / (demands.length : ℚ) * 100)
        + ((countStatus "Completed" demands : ℚ) / (demands.length : ℚ) * 100)
        + ((countStatus "Cancelled" demands : ℚ) / (demands.length : ℚ) * 100) < 100 := by
      rw [div_mul_eq_mul_div, div_mul_eq_mul_div, div_mul_eq_mul_div, div_mul_eq_mul_div,
        div_add_div_same, div_add_div_same, div_add_div_same, div_lt_iff hNpos]
      nlinarith
    have hbR := (abs_le.mp (abs_toFixedQ_sub 1 ((countStatus "Received" demands : ℚ)
      / (demands.length : ℚ) * 100))).2
    have hbP := (abs_le.mp (abs_toFixedQ_sub 1 ((countStatus "Processing" demands : ℚ)
      / (demands.length : ℚ) * 100))).2
    have hbC := (abs_le.mp (abs_toFixedQ_sub 1 ((countStatus "Completed" demands : ℚ)
      / (demands.length : ℚ) * 100))).2
    have hbX := (abs_le.mp (abs_toFixedQ_sub 1 ((countStatus "Cancelled" demands : ℚ)
      / (demands.length : ℚ) * 100))).2
    simp only [loadOrderStatusSummary, hne, if_false, demandStatuses, List.map_cons,
      List.map_nil, List.sum_cons, List.sum_nil, List.length_cons, List.length_nil]
    norm_num at hbR hbP hbC hbX ⊢
    linarith

theorem statusAggregator_unknownStatus_witness :
    ((loadOrderStatusSummary [⟨"Unknown", 0, none⟩]).map StatusSummaryPoint.count).sum
        < ([⟨"Unknown", 0, none⟩] : List DemandItem).length
    ∧ ((loadOrderStatusSummary [⟨"Unknown", 0, none⟩]).map StatusSummaryPoint.percentage).sum
        < 100 + (1 / 20) * (demandStatuses.length : ℚ) :=
  statusAggregator_unknownStatus [⟨"Unknown", 0, none⟩]
    ⟨⟨"Unknown", 0, none⟩, by simp, by simp [demandStatuses]⟩

theorem length_filter_map_eq {α β : Type} (f : α → β) (p : β → Bool) (l : List α) :
    ((l.map f).filter p).length = (l.filter (fun a => p (f a))).length := by
  induction l with
  | nil => rfl
  | cons a t ih =>
    rw [List.map_cons, List.filter_cons, List.filter_cons]
    by_cases hp : p (f a) = true
    · rw [if_pos hp, if_pos hp, List.length_cons, List.length_cons, ih]
    · rw [if_neg hp, if_neg hp, ih]

theorem length_filter_mono {α : Type} (p q : α → Bool) (h : ∀ a, p a = true → q a = true)
    (l : List α) : (l.filter p).length ≤ (l.filter q).length := by
  induction l with
  | nil => exact Nat.le_refl 0
  | cons a t ih =>
    rw [List.filter_cons, List.filter_cons]
    by_cases hp : p a = true
    · rw [if_pos hp, if_pos (h a hp)]
      simpa using ih
    · rw [if_neg hp]
      by_cases hq : q a = true
      · rw [if_pos hq]
        exact le_trans ih (by simp)
      · rw [if_neg hq]
        exact ih

/-- C3: the ranker never keeps a company whose summed volume is `0`, returns
at most `min(topN, #companies of the role with nonzero summed volume)`
entries, and its values are sorted non-increasing. -/
theorem companyRanker_invariants (allCompanies : List MockCompany) (allItems : List RankItem)
    (role : UserRole) (topN : ℕ) :
    (∀ cv ∈ sortedCompanies allCompanies allItems role topN, cv.totalVolume ≠ 0)
    ∧ (loadTopCompaniesByVolume allCompanies allItems role topN).length
        ≤ min topN (((allCompanies.filter (fun c => c.role = role)).filter
            (fun c => companyVolume allItems c.id ≠ 0)).length)
    ∧ ((loadTopCompaniesByVolume allCompanies allItems role topN).map
        ChartDataPoint.value).Pairwise (fun x y => y ≤ x) := by
  refine ⟨?_, ?_, ?_⟩
  · intro cv hcv
    have h1 : cv ∈ sortVolumeDesc (((allCompanies.filter (fun c => c.role = role)).map
        (fun c => CompanyVolume.mk c (companyVolume allItems c.id))).filter
          (fun cv => 0 < cv.totalVolume)) := List.take_subset _ _ hcv
    have h2 := mem_sortVolumeDesc.mp h1
    have h3 := List.of_mem_filter h2
    exact ne_of_gt (by simpa using h3)
  · rw [loadTopCompaniesByVolume, chartDataFrom_length, sortedCompanies,
      List.length_take, length_sortVolumeDesc]
    refine min_le_min (le_refl topN) ?_
    rw [length_filter_map_eq]
    exact length_filter_mono _ _
      (by intro a ha; simp at ha ⊢; exact ne_of_gt ha) _
  · rw [loadTopCompaniesByVolume, chartDataFrom_map_value, List.pairwise_map]
    have hp : (sortedCompanies allCompanies allItems role topN).Pairwise
        (fun a b => b.totalVolume ≤ a.totalVolume) :=
      (pairwise_sortVolumeDesc _).sublist (List.take_sublist _ _)
    exact hp.imp (fun hab => toFixedQ_mono 2 hab)

/-- C6: each returned entry pairs the company's display name — unchanged when
at most 15 characters, else its first 12 characters plus a 3-character
ellipsis, 15 characters in all — with the summed volume rounded to 2
decimals, in the order of `sortedCompanies`. -/
theorem companyRanker_labels (allCompanies : List MockCompany) (allItems : List RankItem)
    (role : UserRole) (topN : ℕ) :
    (loadTopCompaniesByVolume allCompanies allItems role topN).map (fun p => (p.label, p.value))
      = (sortedCompanies allCompanies allItems role topN).map
          (fun cv => (truncateLabel cv.company.companyName, toFixedQ 2 cv.totalVolume))
    ∧ ∀ name : String,
        (truncateLabel name).length = min name.length 15
        ∧ (15 < name.length → truncateLabel name = String.mk (name.data.take 12) ++ "...")
        ∧ (name.length ≤ 15 → truncateLabel name = name) := by
  refine ⟨by rw [loadTopCompaniesByVolume, chartDataFrom_map_label_value], ?_⟩
  intro name
  refine ⟨?_, fun h => by rw [truncateLabel, if_pos h],
    fun h => by rw [truncateLabel, if_neg (not_lt.mpr h)]⟩
  obtain ⟨l⟩ := name
  rw [truncateLabel]
  by_cases h : 15 < (String.mk l).length
  · rw [if_pos h]
    have h' : 15 < l.length := h
    have e : (String.mk (List.take 12 l) ++ ("..." : String))
        = String.mk (List.take 12 l ++ ['.', '.', '.']) := rfl
    rw [e]
    show (List.take 12 l ++ ['.', '.', '.']).length = min l.length 15
    rw [List.length_append, List.length_take]
    simp only [String.length, List.length_cons, List.length_nil]
    omega
  · rw [if_neg h]
    have h' : ¬ 15 < l.length := h
    show l.length = min l.length 15
    omega

/-- C9: ties are broken stably: restricted to the companies of any one
summed volume `v`, the ranker's output is an initial segment of the
original (role-filtered) company list restricted to volume `v`, in original
order. -/
theorem companyRanker_stable_ties (allCompanies : List MockCompany) (allItems : List RankItem)
    (role : UserRole) (topN : ℕ) (v : ℚ) :
    ∃ k, (sortedCompanies allCompanies allItems role topN).filter
        (fun cv => cv.totalVolume = v)
      = ((((allCompanies.filter (fun c => c.role = role)).map
            (fun c => CompanyVolume.mk c (companyVolume allItems c.id))).filter
          (fun cv => 0 < cv.totalVolume)).filter
            (fun cv => cv.totalVolume = v)).take k := by
  rw [sortedCompanies]
  obtain ⟨k, hk⟩ := filter_take (fun cv => decide (cv.totalVolume = v))
    (sortVolumeDesc (((allCompanies.filter (fun c => c.role = role)).map
      (fun c => CompanyVolume.mk c (companyVolume allItems c.id))).filter
        (fun cv => 0 < cv.totalVolume))) topN
  exact ⟨k, by rw [hk, filter_sortVolumeDesc]⟩

end Pohi
